import Mathlib

/-!
Shallow embedding of the geometric core of the Ray-Caster repository
(src/main.c).  The C program computes with IEEE doubles; the embedding
idealizes double arithmetic as arithmetic in a linear ordered field `F`
(instantiated at `ℚ` for executable claims and at `ℝ` for the claims that
involve trigonometry).  All constants of the source are carried over
exactly.
-/

namespace RayCaster

/-- `Point` from src/main.c: a pair of coordinates. -/
structure Point (F : Type) where
  x : F
  y : F
deriving DecidableEq

/-- `Line` from src/main.c: a segment given by its two endpoints. -/
structure Line (F : Type) where
  point1 : Point F
  point2 : Point F
deriving DecidableEq

variable {F : Type} [LinearOrderedField F]

/-- The squared Euclidean distance between two points.  The source's
`pointDistance` (main.c:69) returns `sqrt(pow(p2.x-p1.x,2)+pow(p2.y-p1.y,2))`;
the square root does not live in `ℚ`, so the embedding keeps the square and
takes the root only when forming real-valued distances (`pointDistance`
below).  Every comparison the program makes between distances is mirrored
faithfully: `sqrt` is strictly monotone on nonnegatives, so comparing
squares decides exactly the same branches (lemmas
`pointDistance_lt_pointDistance_iff` and `pointDistance_lt_iff_sq_lt_sq`). -/
def pointDistanceSq (p1 p2 : Point F) : F :=
  (p2.x - p1.x) ^ 2 + (p2.y - p1.y) ^ 2

/-- `pointDistance` (main.c:69): the Euclidean distance, as a real number. -/
noncomputable def pointDistance (p1 p2 : Point ℚ) : ℝ :=
  Real.sqrt ((pointDistanceSq p1 p2 : ℚ) : ℝ)

/-- Denominator of the parametric equations in
`findLineSegmentIntersection` (main.c:92-96). -/
def intersectDenom (l1 l2 : Line F) : F :=
  (l1.point1.x - l1.point2.x) * (l2.point1.y - l2.point2.y) -
    (l1.point1.y - l1.point2.y) * (l2.point1.x - l2.point2.x)

/-- The parameter `t` along `l1` computed at main.c:92. -/
def intersectT (l1 l2 : Line F) : F :=
  ((l1.point1.x - l2.point1.x) * (l2.point1.y - l2.point2.y) -
    (l1.point1.y - l2.point1.y) * (l2.point1.x - l2.point2.x)) /
      intersectDenom l1 l2

/-- The parameter `u` along `l2` computed at main.c:95. -/
def intersectU (l1 l2 : Line F) : F :=
  -((l1.point1.x - l1.point2.x) * (l1.point1.y - l2.point1.y) -
    (l1.point1.y - l1.point2.y) * (l1.point1.x - l2.point1.x)) /
      intersectDenom l1 l2

/-- `findLineSegmentIntersection` (main.c:76-108).  The C function returns a
flag plus an out-parameter; the embedding returns an `Option`.  The source
divides unconditionally; when the denominator is zero the IEEE quotients are
`±inf` or `NaN`, and the range check `0.0 <= t && t <= 1.0 && 0.0 <= u &&
u <= 1.0` at main.c:100 is false for every such value, so the C function
returns 0.  Field division by zero cannot reproduce that (in Lean `x / 0 =
0` would pass the range check), so the zero-denominator case is made an
explicit branch returning `none`, which is the behavior of the compiled
code. -/
def findLineSegmentIntersection (l1 l2 : Line F) : Option (Point F) :=
  if intersectDenom l1 l2 = 0 then none
  else
    let t := intersectT l1 l2
    let u := intersectU l1 l2
    if 0 ≤ t ∧ t ≤ 1 ∧ 0 ≤ u ∧ u ≤ 1 then
      some ⟨l1.point1.x + t * (l1.point2.x - l1.point1.x),
            l1.point1.y + t * (l1.point2.y - l1.point1.y)⟩
    else none

/-- `ARBITRARY_OUT_OF_BOUNDS_COORD` (main.c:114): `INT16_MAX`. -/
def ARBITRARY_OUT_OF_BOUNDS_COORD : F := 32767

/-- `expandLine` (main.c:112-162), translated branch by branch, including
the final sign adjustment exactly as written in the source: after the
generic extension the x-coordinate is negated when the original segment
points leftwards (main.c:156-157), while the corresponding adjustment of
the y-coordinate (main.c:158-159) multiplies by `1`, a no-op.  The
threshold `10e-7` is `1/1000000`. -/
def expandLine (original : Line F) : Line F :=
  if |original.point2.x - original.point1.x| < 1 / 1000000 then
    if original.point2.y < original.point1.y then
      ⟨original.point1, ⟨original.point1.x, -ARBITRARY_OUT_OF_BOUNDS_COORD⟩⟩
    else
      ⟨original.point1, ⟨original.point1.x, ARBITRARY_OUT_OF_BOUNDS_COORD⟩⟩
  else if |original.point2.y - original.point1.y| < 1 / 1000000 then
    if original.point2.x < original.point1.x then
      ⟨original.point1, ⟨-ARBITRARY_OUT_OF_BOUNDS_COORD, original.point1.y⟩⟩
    else
      ⟨original.point1, ⟨ARBITRARY_OUT_OF_BOUNDS_COORD, original.point1.y⟩⟩
  else
    let slope := (original.point2.y - original.point1.y) /
                   (original.point2.x - original.point1.x)
    let y_intercept := original.point1.y - slope * original.point1.x
    let x2 : F := ARBITRARY_OUT_OF_BOUNDS_COORD
    let y2 := slope * x2 + y_intercept
    let x2' := if original.point2.x < original.point1.x then -x2 else x2
    let y2' := if original.point2.y < original.point1.y then y2 * 1 else y2
    ⟨original.point1, ⟨x2', y2'⟩⟩

/-- The initial value of `dist_to_intersection` (main.c:184): `(double)
INT64_MAX`.  The state kept by the search is the squared distance, so the
sentinel is squared as well (see `pointDistanceSq`). -/
def DIST_SENTINEL : F := 9223372036854775807

/-- `evaluateIntersection` (main.c:164-172).  The C function mutates the
pair (`intersection`, `dist_to_intersection`) through pointers; the
embedding passes that pair as explicit state, with `none` standing for the
still-uninitialized `intersection` variable.  The comparison
`pointDistance(start->point1, *temp) < *dist_to_intersection` is mirrored
on squared distances, which decides identically (sqrt is strictly
monotone; `pointDistance_lt_pointDistance_iff`). -/
def evaluateIntersection (start expanded toIntersect : Line F)
    (st : Option (Point F) × F) : Option (Point F) × F :=
  match findLineSegmentIntersection expanded toIntersect with
  | none => st
  | some temp =>
      if pointDistanceSq start.point1 temp < st.2 then
        (some temp, pointDistanceSq start.point1 temp)
      else st

/-- The fixed wall array `walls` (main.c:31-39), coordinates exactly as in
the source (decimal literals written as fractions). -/
def walls : List (Line F) :=
  [⟨⟨13/20, 1/2⟩, ⟨7/10, 4/5⟩⟩,
   ⟨⟨1/5, 3/10⟩, ⟨2/5, -(1/5)⟩⟩,
   ⟨⟨2/5, -(1/5)⟩, ⟨1/20, -(3/10)⟩⟩,
   ⟨⟨1/20, -(3/10)⟩, ⟨-(1/5), -(1/10)⟩⟩,
   ⟨⟨-(1/5), -(1/10)⟩, ⟨-(1/10), 1/5⟩⟩,
   ⟨⟨-(1/10), 1/5⟩, ⟨1/5, 3/10⟩⟩,
   ⟨⟨-(1/2), 1/2⟩, ⟨-(3/10), 3/10⟩⟩,
   ⟨⟨-(3/10), 1/2⟩, ⟨-(1/2), 3/10⟩⟩,
   ⟨⟨-(1/2), -(1/2)⟩, ⟨-(1/5), -(1/2)⟩⟩]

/-- The border array `borders` (main.c:177-180): north, east, south, west,
a rectangle at extents `±1.1`. -/
def borders : List (Line F) :=
  [⟨⟨-(11/10), 11/10⟩, ⟨11/10, 11/10⟩⟩,
   ⟨⟨11/10, 11/10⟩, ⟨11/10, -(11/10)⟩⟩,
   ⟨⟨-(11/10), -(11/10)⟩, ⟨11/10, -(11/10)⟩⟩,
   ⟨⟨-(11/10), 11/10⟩, ⟨-(11/10), -(11/10)⟩⟩]

/-- `findNearestIntersectionPoint` (main.c:175-200), generalized over the
wall list: the source iterates over the fixed global `walls` array and then
over `borders`; the wall list is injected as a parameter so that
configurations such as an empty wall list can be stated (the source
function itself is `findNearestIntersectionPoint` below).  The local
`intersection` variable of the C function is uninitialized until the first
accepted hit; the embedding models it as an `Option` starting at `none`,
and the function returns that `Option` (returning the uninitialized
variable corresponds to returning `none`). -/
def findNearestIntersectionPointGen (ws : List (Line F)) (start : Line F) :
    Option (Point F) :=
  let expanded := expandLine start
  let st1 := ws.foldl (fun st o => evaluateIntersection start expanded o st)
    (none, DIST_SENTINEL ^ 2)
  let st2 := borders.foldl
    (fun st o => evaluateIntersection start expanded o st) st1
  st2.1

/-- `findNearestIntersectionPoint` (main.c:175-200) with the source's fixed
wall array. -/
def findNearestIntersectionPoint (start : Line F) : Option (Point F) :=
  findNearestIntersectionPointGen walls start

/-- The hit points of the obstacles of `obs` against the extended probe
`ext`, in iteration order: the points the loop of
`findNearestIntersectionPoint` sees, in the order it sees them. -/
def hitPoints (obs : List (Line F)) (ext : Line F) : List (Point F) :=
  obs.filterMap (fun o => findLineSegmentIntersection ext o)

/-- `scroll_callback` (main.c:247-255), as the state transformer it is on
`RAY_DENSITY`: add the scroll offset, clamp to `[0, 1080]`. -/
def scroll_callback (RAY_DENSITY yoffset : ℚ) : ℚ :=
  let r := RAY_DENSITY + yoffset
  if r < 0 then 0
  else if r > 1080 then 1080
  else r

/-- `CIRCLE_RADIUS` (main.c:19). -/
noncomputable def CIRCLE_RADIUS : ℝ := 1 / 20

/-- `monitor_widescreen_compensation` (main.c:15): 1920/1080. -/
noncomputable def monitor_widescreen_compensation : ℝ := 1920 / 1080

/-- `PI` (main.c:17).  The source's literal `3.14159265359` is the decimal
approximation of π used so that `cos`/`sin` sample the circle; the
idealized embedding (which also replaces the C library's double-precision
`cos`/`sin` by the real functions) uses π itself. -/
noncomputable def PI : ℝ := Real.pi

/-- The ray-construction loop of `drawRays` (main.c:216-244): from the
origin, one probe segment per loop iteration `i <  (int) RAY_DENSITY`,
ending on a reference circle of radius `CIRCLE_RADIUS` around the origin,
with the vertical radius scaled by `monitor_widescreen_compensation`; the
angle step is `2π / RAY_DENSITY`.  The OpenGL drawing calls are
presentation-layer and not part of the geometric core. -/
noncomputable def castRays (origin : Point ℝ) (RAY_DENSITY : ℝ) :
    List (Line ℝ) :=
  let inc := 2 * PI / RAY_DENSITY
  (List.range (Int.toNat ⌊RAY_DENSITY⌋)).map fun i : ℕ =>
    ⟨origin,
     ⟨origin.x + CIRCLE_RADIUS * Real.cos ((i : ℝ) * inc),
      origin.y + (CIRCLE_RADIUS * monitor_widescreen_compensation) *
        Real.sin ((i : ℝ) * inc)⟩⟩

/-! ## Basic lemmas on the intersection test -/

/-- Unfolding lemma: the successful case of `findLineSegmentIntersection`
holds exactly when the denominator is nonzero, both parameters lie in
`[0,1]`, and the point is the parametric point on `l1`. -/
lemma findLineSegmentIntersection_eq_some_iff (l1 l2 : Line F) (p : Point F) :
    findLineSegmentIntersection l1 l2 = some p ↔
      intersectDenom l1 l2 ≠ 0 ∧
      (0 ≤ intersectT l1 l2 ∧ intersectT l1 l2 ≤ 1 ∧
        0 ≤ intersectU l1 l2 ∧ intersectU l1 l2 ≤ 1) ∧
      p = ⟨l1.point1.x + intersectT l1 l2 * (l1.point2.x - l1.point1.x),
           l1.point1.y + intersectT l1 l2 * (l1.point2.y - l1.point1.y)⟩ := by
  unfold findLineSegmentIntersection
  by_cases h0 : intersectDenom l1 l2 = 0
  · simp [h0]
  · rw [if_neg h0]
    dsimp only
    by_cases hc : 0 ≤ intersectT l1 l2 ∧ intersectT l1 l2 ≤ 1 ∧
        0 ≤ intersectU l1 l2 ∧ intersectU l1 l2 ≤ 1
    · rw [if_pos hc]
      simp only [Option.some_inj]
      exact ⟨fun hp => ⟨h0, hc, hp.symm⟩, fun h => h.2.2.symm⟩
    · rw [if_neg hc]
      simp only [false_iff, reduceCtorEq]
      rintro ⟨-, hc', -⟩
      exact hc hc'

/-- If the test reports a point, the point also lies on the second segment,
at parameter `intersectU` (Cramer-rule consistency of the two parametric
forms). -/
lemma findLineSegmentIntersection_some_on_l2 (l1 l2 : Line F) (p : Point F)
    (h : findLineSegmentIntersection l1 l2 = some p) :
    p.x = l2.point1.x + intersectU l1 l2 * (l2.point2.x - l2.point1.x) ∧
    p.y = l2.point1.y + intersectU l1 l2 * (l2.point2.y - l2.point1.y) := by
  rw [findLineSegmentIntersection_eq_some_iff] at h
  obtain ⟨h0, -, rfl⟩ := h
  unfold intersectT intersectU
  unfold intersectDenom at h0 ⊢
  constructor <;> · field_simp; ring

/-- If the test reports a point, the denominator is nonzero (the parallel
branch returns `none`). -/
lemma findLineSegmentIntersection_some_denom (l1 l2 : Line F) (p : Point F)
    (h : findLineSegmentIntersection l1 l2 = some p) :
    intersectDenom l1 l2 ≠ 0 :=
  ((findLineSegmentIntersection_eq_some_iff l1 l2 p).mp h).1

/-! ## Lemmas on the search fold of findNearestIntersectionPoint -/

/-- One step of the search on an obstacle the extended line misses leaves
the state unchanged. -/
lemma evaluateIntersection_of_none (start expanded o : Line F)
    (st : Option (Point F) × F)
    (h : findLineSegmentIntersection expanded o = none) :
    evaluateIntersection start expanded o st = st := by
  unfold evaluateIntersection
  rw [h]

/-- A search fold over obstacles the extended line entirely misses leaves
the state unchanged. -/
lemma foldl_evaluateIntersection_of_none (start expanded : Line F)
    (l : List (Line F)) (st : Option (Point F) × F)
    (h : ∀ o ∈ l, findLineSegmentIntersection expanded o = none) :
    l.foldl (fun st o => evaluateIntersection start expanded o st) st = st := by
  induction l generalizing st with
  | nil => rfl
  | cons o l ih =>
      rw [List.foldl_cons,
        evaluateIntersection_of_none start expanded o st
          (h o (List.mem_cons_self o l))]
      exact ih st fun o' ho' => h o' (List.mem_cons_of_mem o ho')

/-! ## C2: the intersection test -/

/-- C2.  For every pair of non-parallel segments (direction cross product
nonzero), `findLineSegmentIntersection` returns a point exactly when the
parameters `t` (along `l1`) and `u` (along `l2`) both lie in `[0,1]`, the
returned point being the parametric point of `l1` at `t`; that point also
lies on `l2` (at parameter `u`); outside `[0,1]` nothing is reported. -/
theorem intersect_some_iff_params_in_unit (l1 l2 : Line ℚ)
    (hpar : (l1.point2.x - l1.point1.x) * (l2.point2.y - l2.point1.y) -
      (l1.point2.y - l1.point1.y) * (l2.point2.x - l2.point1.x) ≠ 0) :
    (∀ p, findLineSegmentIntersection l1 l2 = some p ↔
      (0 ≤ intersectT l1 l2 ∧ intersectT l1 l2 ≤ 1 ∧
        0 ≤ intersectU l1 l2 ∧ intersectU l1 l2 ≤ 1) ∧
      p = ⟨l1.point1.x + intersectT l1 l2 * (l1.point2.x - l1.point1.x),
           l1.point1.y + intersectT l1 l2 * (l1.point2.y - l1.point1.y)⟩) ∧
    (∀ p, findLineSegmentIntersection l1 l2 = some p →
      p.x = l2.point1.x + intersectU l1 l2 * (l2.point2.x - l2.point1.x) ∧
      p.y = l2.point1.y + intersectU l1 l2 * (l2.point2.y - l2.point1.y)) := by
  have hden : intersectDenom l1 l2 ≠ 0 := by
    intro h
    apply hpar
    rw [← h]
    unfold intersectDenom
    ring
  refine ⟨fun p => ?_, fun p => findLineSegmentIntersection_some_on_l2 l1 l2 p⟩
  rw [findLineSegmentIntersection_eq_some_iff]
  exact ⟨fun h => ⟨h.2.1, h.2.2⟩, fun h => ⟨hden, h.1, h.2⟩⟩

/-- Witness for C2 at the concrete non-parallel pair
`(0,0)-(1,1)` and `(1,0)-(0,1)`: the reported point is `(1/2, 1/2)`. -/
theorem intersect_some_iff_params_in_unit_witness :
    findLineSegmentIntersection (⟨⟨0,0⟩,⟨1,1⟩⟩ : Line ℚ) ⟨⟨1,0⟩,⟨0,1⟩⟩ =
      some ⟨1/2, 1/2⟩ := by
  have h := intersect_some_iff_params_in_unit (⟨⟨0,0⟩,⟨1,1⟩⟩ : Line ℚ)
    ⟨⟨1,0⟩,⟨0,1⟩⟩ (by norm_num)
  refine (h.1 ⟨1/2, 1/2⟩).mpr ?_
  norm_num [intersectT, intersectU, intersectDenom, Point.mk.injEq]

/-! ## C5: parallel segments -/

/-- C5.  For every pair of parallel segments (zero cross product of the
direction vectors, which is exactly the denominator of the parametric
equations), the intersection test reports no intersection; the function is
total, so this is a normal outcome, not a fault.  (In the C source the
division by the zero denominator yields infinities or NaNs, all of which
fail the `[0,1]` range check; the embedding's explicit zero branch models
that, see `findLineSegmentIntersection`.) -/
theorem intersect_parallel_eq_none (l1 l2 : Line ℚ)
    (hpar : (l1.point2.x - l1.point1.x) * (l2.point2.y - l2.point1.y) -
      (l1.point2.y - l1.point1.y) * (l2.point2.x - l2.point1.x) = 0) :
    findLineSegmentIntersection l1 l2 = none := by
  unfold findLineSegmentIntersection
  rw [if_pos]
  rw [← hpar]
  unfold intersectDenom
  ring

/-- Witness for C5: two horizontal collinear overlapping segments report no
intersection. -/
theorem intersect_parallel_eq_none_witness :
    findLineSegmentIntersection (⟨⟨0,0⟩,⟨2,0⟩⟩ : Line ℚ) ⟨⟨1,0⟩,⟨3,0⟩⟩ =
      none :=
  intersect_parallel_eq_none _ _ (by norm_num)

/-! ## C8: the ray-density clamp -/

/-- C8.  A scroll event clamps the ray density into `[0, 1080]`: a result
below `0` is set to `0`, above `1080` to `1080`, otherwise the density
changes by exactly the offset; consequently any sequence of events keeps
the density within `[0, 1080]`. -/
theorem scroll_callback_clamp (d y : ℚ) :
    (0 ≤ scroll_callback d y ∧ scroll_callback d y ≤ 1080) ∧
    (d + y < 0 → scroll_callback d y = 0) ∧
    (1080 < d + y → scroll_callback d y = 1080) ∧
    (0 ≤ d + y → d + y ≤ 1080 → scroll_callback d y = d + y) ∧
    (∀ evs : List ℚ, 0 ≤ d → d ≤ 1080 →
      0 ≤ evs.foldl scroll_callback d ∧ evs.foldl scroll_callback d ≤ 1080) := by
  have hstep : ∀ a b : ℚ, 0 ≤ scroll_callback a b ∧ scroll_callback a b ≤ 1080 := by
    intro a b
    unfold scroll_callback
    dsimp only
    split_ifs with h1 h2 <;> constructor <;> linarith
  refine ⟨hstep d y, ?_, ?_, ?_, ?_⟩
  · intro h
    unfold scroll_callback
    rw [if_pos h]
  · intro h
    unfold scroll_callback
    rw [if_neg (by linarith), if_pos h]
  · intro h1 h2
    unfold scroll_callback
    rw [if_neg (by linarith), if_neg (by linarith)]
  · intro evs
    induction evs generalizing d with
    | nil => exact fun h1 h2 => ⟨h1, h2⟩
    | cons e evs ih =>
        intro _ _
        rw [List.foldl_cons]
        exact ih _ (hstep d e).1 (hstep d e).2

/-- Witness for C8: from the default density 180, one scroll tick of `+1`
gives 181. -/
theorem scroll_callback_clamp_witness : scroll_callback 180 1 = 181 := by
  rw [(scroll_callback_clamp 180 1).2.2.2.1 (by norm_num) (by norm_num)]
  norm_num

/-! ## C9: behavior when nothing is hit -/

/-- C9.  If the extended probe intersects no wall and no border, the search
returns its never-initialized accumulator: `none`, the model of the C
function's uninitialized local `intersection` variable.  No error is
signaled and no abort occurs (the function is total); a well-defined point
is produced only when some obstacle intersects the extended probe. -/
theorem nearest_hit_none_of_no_obstacle_hit (start : Line ℚ)
    (h : ∀ o ∈ walls (F := ℚ) ++ borders,
      findLineSegmentIntersection (expandLine start) o = none) :
    findNearestIntersectionPoint start = none := by
  unfold findNearestIntersectionPoint findNearestIntersectionPointGen
  dsimp only
  rw [foldl_evaluateIntersection_of_none start (expandLine start) walls _
      fun o ho => h o (List.mem_append_left _ ho),
    foldl_evaluateIntersection_of_none start (expandLine start) borders _
      fun o ho => h o (List.mem_append_right _ ho)]

/-- Witness for C9: a probe far outside the border rectangle, pointing away
from it, hits nothing, and the search returns `none`. -/
theorem nearest_hit_none_of_no_obstacle_hit_witness :
    findNearestIntersectionPoint (⟨⟨100,100⟩,⟨101,100⟩⟩ : Line ℚ) = none := by
  apply nearest_hit_none_of_no_obstacle_hit
  have he : expandLine (⟨⟨100,100⟩,⟨101,100⟩⟩ : Line ℚ) =
      ⟨⟨100,100⟩,⟨32767,100⟩⟩ := by
    norm_num [expandLine, ARBITRARY_OUT_OF_BOUNDS_COORD, abs_lt]
  intro o ho
  rw [he]
  simp only [walls, borders, List.cons_append, List.nil_append] at ho
  fin_cases ho <;>
    norm_num [findLineSegmentIntersection, intersectDenom, intersectT,
      intersectU]

/-! ## Distances versus squared distances

The source compares Euclidean distances (`pointDistance`); the embedding's
search state keeps squared distances.  The following lemmas show the two
orderings agree, so every branch decision of the search is preserved. -/

lemma pointDistanceSq_nonneg (p1 p2 : Point F) : 0 ≤ pointDistanceSq p1 p2 := by
  unfold pointDistanceSq
  positivity

/-- Strict comparison of distances is strict comparison of squares. -/
lemma pointDistance_lt_pointDistance_iff (a p q : Point ℚ) :
    pointDistance a p < pointDistance a q ↔
      pointDistanceSq a p < pointDistanceSq a q := by
  unfold pointDistance
  rw [Real.sqrt_lt_sqrt_iff (by exact_mod_cast pointDistanceSq_nonneg a p)]
  exact_mod_cast Iff.rfl

/-- Comparison of distances is comparison of squares. -/
lemma pointDistance_le_pointDistance_iff (a p q : Point ℚ) :
    pointDistance a p ≤ pointDistance a q ↔
      pointDistanceSq a p ≤ pointDistanceSq a q := by
  unfold pointDistance
  rw [Real.sqrt_le_sqrt_iff (by exact_mod_cast pointDistanceSq_nonneg a q)]
  exact_mod_cast Iff.rfl

/-- Being below the `INT64_MAX` sentinel as a distance is being below its
square as a squared distance: the code's initial comparison against
`dist_to_intersection = INT64_MAX` is mirrored by the squared sentinel. -/
lemma pointDistance_lt_sentinel_iff (a p : Point ℚ) :
    pointDistance a p < ((DIST_SENTINEL : ℚ) : ℝ) ↔
      pointDistanceSq a p < DIST_SENTINEL ^ 2 := by
  unfold pointDistance
  rw [Real.sqrt_lt' (by norm_num [DIST_SENTINEL])]
  rw [show (((DIST_SENTINEL : ℚ) : ℝ)) ^ 2 = ((DIST_SENTINEL ^ 2 : ℚ) : ℝ) by
    push_cast; ring]
  exact_mod_cast Iff.rfl

/-! ## The invariant of the nearest-hit search -/

/-- Invariant of the fold in `findNearestIntersectionPoint`: after seeing
the hit points `H` (in iteration order), either nothing was accepted and
every seen hit was at least the sentinel away (squared), or the state
holds the first hit of minimal squared distance: strictly closer than
every hit before it, at most as far as every hit after it. -/
def searchInv (start : Line F) (st : Option (Point F) × F)
    (H : List (Point F)) : Prop :=
  (st.1 = none ∧ st.2 = DIST_SENTINEL ^ 2 ∧
    ∀ q ∈ H, DIST_SENTINEL ^ 2 ≤ pointDistanceSq start.point1 q) ∨
  (∃ p H1 H2, st.1 = some p ∧ st.2 = pointDistanceSq start.point1 p ∧
    pointDistanceSq start.point1 p < DIST_SENTINEL ^ 2 ∧
    H = H1 ++ p :: H2 ∧
    (∀ q ∈ H1, pointDistanceSq start.point1 p < pointDistanceSq start.point1 q) ∧
    (∀ q ∈ H2, pointDistanceSq start.point1 p ≤ pointDistanceSq start.point1 q))

/-- One `evaluateIntersection` step preserves the search invariant,
appending the step's hit (if any) to the seen list. -/
lemma searchInv_step (start expanded o : Line F) (st : Option (Point F) × F)
    (H : List (Point F)) (h : searchInv start st H) :
    searchInv start (evaluateIntersection start expanded o st)
      (H ++ (findLineSegmentIntersection expanded o).toList) := by
  cases hio : findLineSegmentIntersection expanded o with
  | none =>
      rw [evaluateIntersection_of_none start expanded o st hio]
      simpa using h
  | some q =>
      unfold evaluateIntersection
      rw [hio]
      simp only [Option.toList_some]
      by_cases hlt : pointDistanceSq start.point1 q < st.2
      · rw [if_pos hlt]
        rcases h with ⟨-, h2, h3⟩ | ⟨p, H1, H2, -, h2, h3, h4, h5, h6⟩
        · right
          refine ⟨q, H, [], rfl, rfl, by rw [h2] at hlt; exact hlt, by simp, ?_, by simp⟩
          intro x hx
          exact lt_of_lt_of_le (by rw [h2] at hlt; exact hlt) (h3 x hx)
        · right
          rw [h2] at hlt
          refine ⟨q, H1 ++ p :: H2, [], rfl, rfl, lt_trans hlt h3,
            by rw [h4], ?_, by simp⟩
          intro x hx
          rcases List.mem_append.mp hx with hx1 | hx2
          · exact lt_trans hlt (h5 x hx1)
          · rcases List.mem_cons.mp hx2 with rfl | hx3
            · exact hlt
            · exact lt_of_lt_of_le hlt (h6 x hx3)
      · rw [if_neg hlt]
        rcases h with ⟨h1, h2, h3⟩ | ⟨p, H1, H2, h1, h2, h3, h4, h5, h6⟩
        · left
          refine ⟨h1, h2, ?_⟩
          intro x hx
          rcases List.mem_append.mp hx with hx1 | hx2
          · exact h3 x hx1
          · rw [List.mem_singleton.mp hx2]
            rw [h2] at hlt
            exact not_lt.mp hlt
        · right
          refine ⟨p, H1, H2 ++ [q], h1, h2, h3, by rw [h4]; simp, h5, ?_⟩
          intro x hx
          rcases List.mem_append.mp hx with hx1 | hx2
          · exact h6 x hx1
          · rw [List.mem_singleton.mp hx2]
            rw [h2] at hlt
            exact not_lt.mp hlt

/-- The hits of `o :: l` are the hit of `o` (if any) followed by those of
`l`. -/
lemma hitPoints_cons (o : Line F) (l : List (Line F)) (ext : Line F) :
    hitPoints (o :: l) ext =
      (findLineSegmentIntersection ext o).toList ++ hitPoints l ext := by
  cases hio : findLineSegmentIntersection ext o <;>
    simp [hitPoints, List.filterMap_cons, hio]

/-- The whole search fold preserves the invariant, appending all hits of
the processed obstacles. -/
lemma searchInv_foldl (start expanded : Line F) (l : List (Line F))
    (st : Option (Point F) × F) (H : List (Point F))
    (h : searchInv start st H) :
    searchInv start
      (l.foldl (fun st o => evaluateIntersection start expanded o st) st)
      (H ++ hitPoints l expanded) := by
  induction l generalizing st H with
  | nil => simpa [hitPoints] using h
  | cons o l ih =>
      rw [List.foldl_cons, hitPoints_cons, ← List.append_assoc]
      exact ih _ _ (searchInv_step start expanded o st H h)

/-! ## C1 (amended): the returned hit is the first one of minimal distance -/

/-- C1, amended with the precondition forced by the sentinel: provided
every hit of the extended probe lies at Euclidean distance less than
`INT64_MAX` (the initial value of `dist_to_intersection`) from the probe's
start, the search over the walls `ws` followed by the four borders returns
`none` exactly when no obstacle intersects the extended probe, and
otherwise returns the hit of minimal Euclidean distance from the probe's
start, the hit of the earliest obstacle in iteration order in case of
ties (it is strictly closer than every hit seen before it and at most as
far as every hit after it). -/
theorem nearest_hit_first_minimal (ws : List (Line ℚ)) (start : Line ℚ)
    (hbound : ∀ q ∈ hitPoints (ws ++ borders) (expandLine start),
      pointDistance start.point1 q < ((DIST_SENTINEL : ℚ) : ℝ)) :
    (findNearestIntersectionPointGen ws start = none →
      hitPoints (ws ++ borders) (expandLine start) = []) ∧
    (∀ p, findNearestIntersectionPointGen ws start = some p →
      ∃ H1 H2, hitPoints (ws ++ borders) (expandLine start) = H1 ++ p :: H2 ∧
        (∀ q ∈ H1, pointDistance start.point1 p < pointDistance start.point1 q) ∧
        (∀ q ∈ H2, pointDistance start.point1 p ≤ pointDistance start.point1 q)) := by
  have hinv := searchInv_foldl start (expandLine start) (ws ++ borders)
    (none, DIST_SENTINEL ^ 2) [] (Or.inl ⟨rfl, rfl, by simp⟩)
  rw [List.nil_append, List.foldl_append] at hinv
  have hres : findNearestIntersectionPointGen ws start =
      ((borders.foldl
        (fun st o => evaluateIntersection start (expandLine start) o st)
        (ws.foldl (fun st o => evaluateIntersection start (expandLine start) o st)
          (none, DIST_SENTINEL ^ 2)))).1 := rfl
  constructor
  · intro hnone
    rcases hinv with ⟨-, -, h3⟩ | ⟨p, H1, H2, h1, -, -, -, -, -⟩
    · rcases List.eq_nil_or_concat (hitPoints (ws ++ borders) (expandLine start))
        with hnil | ⟨l', q, hq⟩
      · exact hnil
      · exfalso
        have hq' : q ∈ hitPoints (ws ++ borders) (expandLine start) := by
          rw [hq]; simp
        have := (pointDistance_lt_sentinel_iff start.point1 q).mp (hbound q hq')
        exact absurd (h3 q hq') (not_le.mpr this)
    · rw [hres, h1] at hnone
      exact absurd hnone (by simp)
  · intro p hp
    rcases hinv with ⟨h1, -, -⟩ | ⟨p', H1, H2, h1, -, -, h4, h5, h6⟩
    · rw [hres, h1] at hp
      exact absurd hp (by simp)
    · rw [hres, h1, Option.some_inj] at hp
      subst hp
      refine ⟨H1, H2, h4, ?_, ?_⟩
      · intro q hq
        exact (pointDistance_lt_pointDistance_iff start.point1 p' q).mpr (h5 q hq)
      · intro q hq
        exact (pointDistance_le_pointDistance_iff start.point1 p' q).mpr (h6 q hq)

/-- Counterexample to C1 as stated, with no bound on the hit distances: for
the probe from `(10^19, 0)` towards `(10^19 - 1, 0)` and the single wall
from `(0,-1)` to `(0,1)`, the extended probe intersects the wall at
`(0,0)` (and the east and west borders likewise), but every hit lies
farther than the `INT64_MAX` sentinel that initializes
`dist_to_intersection`, so no hit is ever accepted and the search returns
`none` instead of the minimal-distance hit. -/
theorem nearest_hit_far_probe_counterexample :
    findLineSegmentIntersection
        (expandLine (⟨⟨10^19, 0⟩, ⟨10^19 - 1, 0⟩⟩ : Line ℚ)) ⟨⟨0,-1⟩,⟨0,1⟩⟩ =
      some ⟨0, 0⟩ ∧
    findNearestIntersectionPointGen [⟨⟨0,-1⟩,⟨0,1⟩⟩]
        (⟨⟨10^19, 0⟩, ⟨10^19 - 1, 0⟩⟩ : Line ℚ) = none := by
  have he : expandLine (⟨⟨10^19, 0⟩, ⟨10^19 - 1, 0⟩⟩ : Line ℚ) =
      ⟨⟨10^19, 0⟩, ⟨-32767, 0⟩⟩ := by
    norm_num [expandLine, ARBITRARY_OUT_OF_BOUNDS_COORD, abs_lt]
  constructor
  · rw [he]
    norm_num [findLineSegmentIntersection, intersectDenom, intersectT,
      intersectU, Point.mk.injEq]
  · unfold findNearestIntersectionPointGen
    rw [he]
    norm_num [borders, List.foldl_cons, List.foldl_nil, evaluateIntersection,
      findLineSegmentIntersection, intersectDenom, intersectT, intersectU,
      pointDistanceSq, DIST_SENTINEL]

/-- Witness for C1 (amended) at a concrete input: for the eastward probe
from the origin with no walls, the hit list is exactly the east-border hit
`(1.1, 0)`, which the search returns. -/
theorem nearest_hit_first_minimal_witness :
    ∃ H1 H2, hitPoints (([] : List (Line ℚ)) ++ borders)
        (expandLine ⟨⟨0,0⟩,⟨1/20,0⟩⟩) = H1 ++ (⟨11/10, 0⟩ : Point ℚ) :: H2 ∧
      (∀ q ∈ H1, pointDistance ⟨0,0⟩ ⟨11/10, 0⟩ < pointDistance ⟨0,0⟩ q) ∧
      (∀ q ∈ H2, pointDistance ⟨0,0⟩ ⟨11/10, 0⟩ ≤ pointDistance ⟨0,0⟩ q) := by
  have he : expandLine (⟨⟨0,0⟩,⟨1/20,0⟩⟩ : Line ℚ) = ⟨⟨0,0⟩,⟨32767,0⟩⟩ := by
    norm_num [expandLine, ARBITRARY_OUT_OF_BOUNDS_COORD, abs_lt]
  have hhits : hitPoints (([] : List (Line ℚ)) ++ borders)
      (expandLine ⟨⟨0,0⟩,⟨1/20,0⟩⟩) = [⟨11/10, 0⟩] := by
    rw [he]
    norm_num [hitPoints, borders, List.filterMap_cons, findLineSegmentIntersection,
      intersectDenom, intersectT, intersectU, Point.mk.injEq]
  have hres : findNearestIntersectionPointGen ([] : List (Line ℚ))
      ⟨⟨0,0⟩,⟨1/20,0⟩⟩ = some ⟨11/10, 0⟩ := by
    unfold findNearestIntersectionPointGen
    rw [he]
    norm_num [borders, List.foldl_cons, List.foldl_nil, evaluateIntersection,
      findLineSegmentIntersection, intersectDenom, intersectT, intersectU,
      pointDistanceSq, DIST_SENTINEL, Point.mk.injEq]
  have hbound : ∀ q ∈ hitPoints (([] : List (Line ℚ)) ++ borders)
      (expandLine ⟨⟨0,0⟩,⟨1/20,0⟩⟩),
      pointDistance (⟨0,0⟩ : Point ℚ) q < ((DIST_SENTINEL : ℚ) : ℝ) := by
    intro q hq
    rw [hhits, List.mem_singleton] at hq
    subst hq
    rw [pointDistance_lt_sentinel_iff]
    norm_num [pointDistanceSq, DIST_SENTINEL]
  exact (nearest_hit_first_minimal [] ⟨⟨0,0⟩,⟨1/20,0⟩⟩ hbound).2 _ hres

/-! ## C3: the extension direction bug -/

/-- C3: evaluation of `expandLine` at the failing input, a leftward,
upward segment from `(0,0)` to `(-0.1, 0.1)`.  The source negates the
extended x-coordinate for leftward segments (main.c:156-157) without
recomputing y (the y adjustment at main.c:158-159 multiplies by one), so
the extended endpoint is `(-32767, -32767)`: the dot product of the
extension direction with the original direction is `0` — the extension is
perpendicular to the original segment, not along it (its normalized dot
product is `0`, not `≈ 1`), contradicting the claim and the function's own
comment (main.c:110-111). -/
theorem expandLine_left_leaning_wrong_direction :
    expandLine (⟨⟨0,0⟩,⟨-(1/10),1/10⟩⟩ : Line ℚ) =
      ⟨⟨0,0⟩,⟨-32767,-32767⟩⟩ ∧
    ((expandLine (⟨⟨0,0⟩,⟨-(1/10),1/10⟩⟩ : Line ℚ)).point2.x - 0) * (-(1/10) - 0) +
      ((expandLine (⟨⟨0,0⟩,⟨-(1/10),1/10⟩⟩ : Line ℚ)).point2.y - 0) * (1/10 - 0) = 0 := by
  have he : expandLine (⟨⟨0,0⟩,⟨-(1/10),1/10⟩⟩ : Line ℚ) =
      ⟨⟨0,0⟩,⟨-32767,-32767⟩⟩ := by
    norm_num [expandLine, ARBITRARY_OUT_OF_BOUNDS_COORD, abs_lt, Line.mk.injEq,
      Point.mk.injEq]
  rw [he]
  norm_num

/-! ## C10: zero ray density -/

/-- C10.  At ray density `0` the ray loop of `drawRays` runs zero times:
no probe segment is produced and the nearest-hit search is never invoked
(mapping it over the produced rays gives the empty list); everything is
total, so the frame completes without failure.  (The angular increment
`2π/0` is computed but feeds no loop iteration.) -/
theorem castRays_zero_density (origin : Point ℝ) :
    castRays origin 0 = [] ∧
    (castRays origin 0).map (fun s => findNearestIntersectionPoint s) = [] := by
  have h : castRays origin 0 = [] := by
    unfold castRays
    simp
  exact ⟨h, by rw [h]; rfl⟩

/-! ## C6: the ray field -/

/-- C6.  For every origin and every ray count `n > 0`, the ray loop of
`drawRays` produces exactly `n` probe segments, the `i`-th (for `i < n`)
going from the origin to the point at angle `i * (2π/n)` on the reference
circle of radius `CIRCLE_RADIUS`, with the vertical radius scaled by
`monitor_widescreen_compensation = 1920/1080` (the aspect ratio is applied
to the vertical component only). -/
theorem castRays_count_and_formula (origin : Point ℝ) (n i : ℕ)
    (hn : 0 < n) (hi : i < n) :
    (castRays origin (n : ℝ)).length = n ∧
    (castRays origin (n : ℝ))[i]? =
      some ⟨origin,
        ⟨origin.x + CIRCLE_RADIUS * Real.cos (i * (2 * Real.pi / n)),
         origin.y + (CIRCLE_RADIUS * monitor_widescreen_compensation) *
           Real.sin (i * (2 * Real.pi / n))⟩⟩ := by
  unfold castRays PI
  dsimp only
  rw [Int.floor_natCast, Int.toNat_natCast]
  refine ⟨by rw [List.length_map, List.length_range], ?_⟩
  rw [List.getElem?_map, List.getElem?_range hi]
  rfl

/-- Witness for C6 at origin `(0,0)`, `n = 4`, `i = 1`. -/
theorem castRays_count_and_formula_witness :
    (castRays ⟨0,0⟩ ((4 : ℕ) : ℝ)).length = 4 ∧
    (castRays ⟨0,0⟩ ((4 : ℕ) : ℝ))[(1 : ℕ)]? =
      some ⟨⟨0,0⟩,
        ⟨(0 : ℝ) + CIRCLE_RADIUS * Real.cos ((1 : ℕ) * (2 * Real.pi / (4 : ℕ))),
         (0 : ℝ) + (CIRCLE_RADIUS * monitor_widescreen_compensation) *
           Real.sin ((1 : ℕ) * (2 * Real.pi / (4 : ℕ)))⟩⟩ :=
  castRays_count_and_formula ⟨0,0⟩ 4 1 (by norm_num) (by norm_num)

/-! ## C7: four cardinal rays from the origin, borders only -/

/-- The four probe segments cast from `(0,0)` at density 4: the angles are
`0`, `π/2`, `π`, `3π/2`, so the endpoints are the four cardinal points of
the reference circle (vertical radius `1/20 * 1920/1080 = 4/45`). -/
lemma castRays_origin_four :
    castRays ⟨0,0⟩ 4 =
      [⟨⟨0,0⟩,⟨1/20, 0⟩⟩,
       ⟨⟨0,0⟩,⟨0, 4/45⟩⟩,
       ⟨⟨0,0⟩,⟨-(1/20), 0⟩⟩,
       ⟨⟨0,0⟩,⟨0, -(4/45)⟩⟩] := by
  unfold castRays PI CIRCLE_RADIUS monitor_widescreen_compensation
  dsimp only
  rw [show (4:ℝ) = ((4:ℕ):ℝ) by norm_num, Int.floor_natCast, Int.toNat_natCast]
  rw [show List.range 4 = [0,1,2,3] from rfl]
  simp only [List.map_cons, List.map_nil]
  rw [show ((1:ℕ):ℝ) * (2 * Real.pi / ((4:ℕ):ℝ)) = Real.pi/2 by
      push_cast; ring,
    show ((2:ℕ):ℝ) * (2 * Real.pi / ((4:ℕ):ℝ)) = Real.pi by
      push_cast; ring,
    show ((3:ℕ):ℝ) * (2 * Real.pi / ((4:ℕ):ℝ)) = Real.pi + Real.pi/2 by
      push_cast; ring]
  norm_num [Real.cos_pi_div_two, Real.sin_pi_div_two, Real.cos_pi,
    Real.sin_pi, Real.cos_add, Real.sin_add, Line.mk.injEq, Point.mk.injEq]

/-- C7.  With origin `(0,0)`, an empty wall list and only the four borders
at `±1.1`, the four rays cast at density 4 (angles 0°, 90°, 180°, 270°)
produce the nearest hits `(1.1, 0)`, `(0, 1.1)`, `(-1.1, 0)`, `(0, -1.1)`
— here exactly, since the arithmetic is exact. -/
theorem four_cardinal_rays_hit_borders :
    (castRays ⟨0,0⟩ 4).map
        (fun s => findNearestIntersectionPointGen [] s) =
      [some ⟨11/10, 0⟩, some ⟨0, 11/10⟩,
       some ⟨-(11/10), 0⟩, some ⟨0, -(11/10)⟩] := by
  have r0 : findNearestIntersectionPointGen ([] : List (Line ℝ))
      ⟨⟨0,0⟩,⟨1/20, 0⟩⟩ = some ⟨11/10, 0⟩ := by
    have he : expandLine (⟨⟨0,0⟩,⟨1/20,0⟩⟩ : Line ℝ) = ⟨⟨0,0⟩,⟨32767,0⟩⟩ := by
      norm_num [expandLine, ARBITRARY_OUT_OF_BOUNDS_COORD, abs_lt]
    unfold findNearestIntersectionPointGen
    rw [he]
    norm_num [borders, List.foldl_cons, List.foldl_nil, evaluateIntersection,
      findLineSegmentIntersection, intersectDenom, intersectT, intersectU,
      pointDistanceSq, DIST_SENTINEL, Point.mk.injEq]
  have r1 : findNearestIntersectionPointGen ([] : List (Line ℝ))
      ⟨⟨0,0⟩,⟨0, 4/45⟩⟩ = some ⟨0, 11/10⟩ := by
    have he : expandLine (⟨⟨0,0⟩,⟨0, 4/45⟩⟩ : Line ℝ) = ⟨⟨0,0⟩,⟨0, 32767⟩⟩ := by
      norm_num [expandLine, ARBITRARY_OUT_OF_BOUNDS_COORD, abs_lt]
    unfold findNearestIntersectionPointGen
    rw [he]
    norm_num [borders, List.foldl_cons, List.foldl_nil, evaluateIntersection,
      findLineSegmentIntersection, intersectDenom, intersectT, intersectU,
      pointDistanceSq, DIST_SENTINEL, Point.mk.injEq]
  have r2 : findNearestIntersectionPointGen ([] : List (Line ℝ))
      ⟨⟨0,0⟩,⟨-(1/20), 0⟩⟩ = some ⟨-(11/10), 0⟩ := by
    have he : expandLine (⟨⟨0,0⟩,⟨-(1/20), 0⟩⟩ : Line ℝ) =
        ⟨⟨0,0⟩,⟨-32767, 0⟩⟩ := by
      norm_num [expandLine, ARBITRARY_OUT_OF_BOUNDS_COORD, abs_lt]
    unfold findNearestIntersectionPointGen
    rw [he]
    norm_num [borders, List.foldl_cons, List.foldl_nil, evaluateIntersection,
      findLineSegmentIntersection, intersectDenom, intersectT, intersectU,
      pointDistanceSq, DIST_SENTINEL, Point.mk.injEq]
  have r3 : findNearestIntersectionPointGen ([] : List (Line ℝ))
      ⟨⟨0,0⟩,⟨0, -(4/45)⟩⟩ = some ⟨0, -(11/10)⟩ := by
    have he : expandLine (⟨⟨0,0⟩,⟨0, -(4/45)⟩⟩ : Line ℝ) =
        ⟨⟨0,0⟩,⟨0, -32767⟩⟩ := by
      norm_num [expandLine, ARBITRARY_OUT_OF_BOUNDS_COORD, abs_lt]
    unfold findNearestIntersectionPointGen
    rw [he]
    norm_num [borders, List.foldl_cons, List.foldl_nil, evaluateIntersection,
      findLineSegmentIntersection, intersectDenom, intersectT, intersectU,
      pointDistanceSq, DIST_SENTINEL, Point.mk.injEq]
  rw [castRays_origin_four]
  simp only [List.map_cons, List.map_nil]
  rw [r0, r1, r2, r3]

/-! ## C4: every probe from strictly inside the borders hits something

The extension produced by `expandLine` always ends far outside the
`±1.1` rectangle (one coordinate is `±32767`), and a segment from a point
strictly inside the rectangle to a point outside it meets one of the four
border segments with both parameters in `[0,1]`.  The four `hit_*` lemmas
verify the parameter conditions of the code's intersection formulas for
each border; `exists_border_hit` performs the case analysis. -/

/-- The first endpoint is preserved by `expandLine` in every branch. -/
lemma expandLine_point1 (l : Line F) : (expandLine l).point1 = l.point1 := by
  unfold expandLine
  dsimp only
  split_ifs <;> rfl

/-- The second endpoint of an expanded line has a coordinate `±32767`,
far outside the border rectangle. -/
lemma expandLine_point2_out (l : Line F) :
    11/10 < |(expandLine l).point2.x| ∨ 11/10 < |(expandLine l).point2.y| := by
  have h1 : (11/10 : F) < |(32767 : F)| := by
    rw [abs_of_pos (by norm_num : (0:F) < 32767)]
    norm_num
  have h2 : (11/10 : F) < |(-32767 : F)| := by
    rw [abs_neg, abs_of_pos (by norm_num : (0:F) < 32767)]
    norm_num
  unfold expandLine ARBITRARY_OUT_OF_BOUNDS_COORD
  dsimp only
  split_ifs <;>
    first
      | exact Or.inl h1
      | exact Or.inl h2
      | exact Or.inr h1
      | exact Or.inr h2

/-- A segment from `(a,b)` with `b` below the top border, reaching height
`d` at or above it, whose crossing parameter conditions hold, meets the
north border. -/
lemma hit_north (a b c d : F) (hb : b < 11/10) (hd : 11/10 ≤ d)
    (h0 : 0 ≤ (a - c) * (b - 11/10) - (b - d) * (a + 11/10))
    (h1 : (a - c) * (b - 11/10) - (b - d) * (a + 11/10) ≤ (d - b) * (11/5)) :
    ∃ q, findLineSegmentIntersection (⟨⟨a,b⟩,⟨c,d⟩⟩ : Line F)
        ⟨⟨-(11/10), 11/10⟩, ⟨11/10, 11/10⟩⟩ = some q := by
  set l1 : Line F := ⟨⟨a,b⟩,⟨c,d⟩⟩ with hl1
  set l2 : Line F := ⟨⟨-(11/10), 11/10⟩, ⟨11/10, 11/10⟩⟩ with hl2
  have hD : intersectDenom l1 l2 = (b - d) * (11/5) := by
    simp only [intersectDenom, hl1, hl2]
    ring
  have hDneg : intersectDenom l1 l2 < 0 := by
    rw [hD]
    linarith
  have hT : intersectT l1 l2 = ((b - 11/10) * (11/5)) / ((b - d) * (11/5)) := by
    simp only [intersectT, intersectDenom, hl1, hl2]
    ring
  have hU : intersectU l1 l2 =
      -((a - c) * (b - 11/10) - (b - d) * (a + 11/10)) / ((b - d) * (11/5)) := by
    simp only [intersectU, intersectDenom, hl1, hl2]
    ring
  have hDneg' : (b - d) * (11/5) < 0 := hD ▸ hDneg
  refine ⟨_, (findLineSegmentIntersection_eq_some_iff l1 l2 _).mpr
    ⟨ne_of_lt hDneg, ⟨?_, ?_, ?_, ?_⟩, rfl⟩⟩
  · rw [hT, le_div_iff_of_neg hDneg']
    linarith
  · rw [hT, div_le_iff_of_neg hDneg']
    linarith
  · rw [hU, le_div_iff_of_neg hDneg']
    linarith
  · rw [hU, div_le_iff_of_neg hDneg']
    linarith

/-- Segment from `(a,b)` above the bottom border, reaching `d` at or below
it: meets the south border when the crossing parameter conditions hold. -/
lemma hit_south (a b c d : F) (hb : -(11/10) < b) (hd : d ≤ -(11/10))
    (h0 : (a - c) * (b + 11/10) - (b - d) * (a + 11/10) ≤ 0)
    (h1 : -((b - d) * (11/5)) ≤ (a - c) * (b + 11/10) - (b - d) * (a + 11/10)) :
    ∃ q, findLineSegmentIntersection (⟨⟨a,b⟩,⟨c,d⟩⟩ : Line F)
        ⟨⟨-(11/10), -(11/10)⟩, ⟨11/10, -(11/10)⟩⟩ = some q := by
  set l1 : Line F := ⟨⟨a,b⟩,⟨c,d⟩⟩ with hl1
  set l2 : Line F := ⟨⟨-(11/10), -(11/10)⟩, ⟨11/10, -(11/10)⟩⟩ with hl2
  have hD : intersectDenom l1 l2 = (b - d) * (11/5) := by
    simp only [intersectDenom, hl1, hl2]
    ring
  have hDpos : 0 < intersectDenom l1 l2 := by
    rw [hD]
    linarith
  have hT : intersectT l1 l2 = ((b + 11/10) * (11/5)) / ((b - d) * (11/5)) := by
    simp only [intersectT, intersectDenom, hl1, hl2]
    ring
  have hU : intersectU l1 l2 =
      -((a - c) * (b + 11/10) - (b - d) * (a + 11/10)) / ((b - d) * (11/5)) := by
    simp only [intersectU, intersectDenom, hl1, hl2]
    ring
  have hDpos' : 0 < (b - d) * (11/5) := hD ▸ hDpos
  refine ⟨_, (findLineSegmentIntersection_eq_some_iff l1 l2 _).mpr
    ⟨ne_of_gt hDpos, ⟨?_, ?_, ?_, ?_⟩, rfl⟩⟩
  · rw [hT, le_div_iff hDpos']
    linarith
  · rw [hT, div_le_one hDpos']
    linarith
  · rw [hU, le_div_iff hDpos']
    linarith
  · rw [hU, div_le_one hDpos']
    linarith

/-- Segment from `(a,b)` left of the east border, reaching `c` at or past
it: meets the east border when the crossing parameter conditions hold. -/
lemma hit_east (a b c d : F) (ha : a < 11/10) (hc : 11/10 ≤ c)
    (h0 : 0 ≤ (a - c) * (b - 11/10) - (b - d) * (a - 11/10))
    (h1 : (a - c) * (b - 11/10) - (b - d) * (a - 11/10) ≤ (c - a) * (11/5)) :
    ∃ q, findLineSegmentIntersection (⟨⟨a,b⟩,⟨c,d⟩⟩ : Line F)
        ⟨⟨11/10, 11/10⟩, ⟨11/10, -(11/10)⟩⟩ = some q := by
  set l1 : Line F := ⟨⟨a,b⟩,⟨c,d⟩⟩ with hl1
  set l2 : Line F := ⟨⟨11/10, 11/10⟩, ⟨11/10, -(11/10)⟩⟩ with hl2
  have hD : intersectDenom l1 l2 = (a - c) * (11/5) := by
    simp only [intersectDenom, hl1, hl2]
    ring
  have hDneg : intersectDenom l1 l2 < 0 := by
    rw [hD]
    linarith
  have hT : intersectT l1 l2 = ((a - 11/10) * (11/5)) / ((a - c) * (11/5)) := by
    simp only [intersectT, intersectDenom, hl1, hl2]
    ring
  have hU : intersectU l1 l2 =
      -((a - c) * (b - 11/10) - (b - d) * (a - 11/10)) / ((a - c) * (11/5)) := by
    simp only [intersectU, intersectDenom, hl1, hl2]
    ring
  have hDneg' : (a - c) * (11/5) < 0 := hD ▸ hDneg
  refine ⟨_, (findLineSegmentIntersection_eq_some_iff l1 l2 _).mpr
    ⟨ne_of_lt hDneg, ⟨?_, ?_, ?_, ?_⟩, rfl⟩⟩
  · rw [hT, le_div_iff_of_neg hDneg']
    linarith
  · rw [hT, div_le_iff_of_neg hDneg']
    linarith
  · rw [hU, le_div_iff_of_neg hDneg']
    linarith
  · rw [hU, div_le_iff_of_neg hDneg']
    linarith

/-- Segment from `(a,b)` right of the west border, reaching `c` at or past
it: meets the west border when the crossing parameter conditions hold. -/
lemma hit_west (a b c d : F) (ha : -(11/10) < a) (hc : c ≤ -(11/10))
    (h0 : (a - c) * (b - 11/10) - (b - d) * (a + 11/10) ≤ 0)
    (h1 : -((a - c) * (11/5)) ≤ (a - c) * (b - 11/10) - (b - d) * (a + 11/10)) :
    ∃ q, findLineSegmentIntersection (⟨⟨a,b⟩,⟨c,d⟩⟩ : Line F)
        ⟨⟨-(11/10), 11/10⟩, ⟨-(11/10), -(11/10)⟩⟩ = some q := by
  set l1 : Line F := ⟨⟨a,b⟩,⟨c,d⟩⟩ with hl1
  set l2 : Line F := ⟨⟨-(11/10), 11/10⟩, ⟨-(11/10), -(11/10)⟩⟩ with hl2
  have hD : intersectDenom l1 l2 = (a - c) * (11/5) := by
    simp only [intersectDenom, hl1, hl2]
    ring
  have hDpos : 0 < intersectDenom l1 l2 := by
    rw [hD]
    linarith
  have hT : intersectT l1 l2 = ((a + 11/10) * (11/5)) / ((a - c) * (11/5)) := by
    simp only [intersectT, intersectDenom, hl1, hl2]
    ring
  have hU : intersectU l1 l2 =
      -((a - c) * (b - 11/10) - (b - d) * (a + 11/10)) / ((a - c) * (11/5)) := by
    simp only [intersectU, intersectDenom, hl1, hl2]
    ring
  have hDpos' : 0 < (a - c) * (11/5) := hD ▸ hDpos
  refine ⟨_, (findLineSegmentIntersection_eq_some_iff l1 l2 _).mpr
    ⟨ne_of_gt hDpos, ⟨?_, ?_, ?_, ?_⟩, rfl⟩⟩
  · rw [hT, le_div_iff hDpos']
    linarith
  · rw [hT, div_le_one hDpos']
    linarith
  · rw [hU, le_div_iff hDpos']
    linarith
  · rw [hU, div_le_one hDpos']
    linarith

set_option maxHeartbeats 1600000 in
/-- A segment starting strictly inside the `±1.1` rectangle and ending
outside it (in x or in y) meets one of the four border segments, as tested
by the code's intersection formula. -/
lemma exists_border_hit (a b c d : F) (ha : |a| < 11/10) (hb : |b| < 11/10)
    (hcd : 11/10 < |c| ∨ 11/10 < |d|) :
    ∃ o ∈ borders (F := F), ∃ q,
      findLineSegmentIntersection (⟨⟨a,b⟩,⟨c,d⟩⟩ : Line F) o = some q := by
  obtain ⟨ha1, ha2⟩ := abs_lt.mp ha
  obtain ⟨hb1, hb2⟩ := abs_lt.mp hb
  have mN : (⟨⟨-(11/10), 11/10⟩, ⟨11/10, 11/10⟩⟩ : Line F) ∈ borders (F := F) := by
    simp [borders]
  have mE : (⟨⟨11/10, 11/10⟩, ⟨11/10, -(11/10)⟩⟩ : Line F) ∈ borders (F := F) := by
    simp [borders]
  have mS : (⟨⟨-(11/10), -(11/10)⟩, ⟨11/10, -(11/10)⟩⟩ : Line F) ∈ borders (F := F) := by
    simp [borders]
  have mW : (⟨⟨-(11/10), 11/10⟩, ⟨-(11/10), -(11/10)⟩⟩ : Line F) ∈ borders (F := F) := by
    simp [borders]
  by_cases hc1 : 11/10 < c
  · by_cases h0 : 0 ≤ (a - c) * (b - 11/10) - (b - d) * (a - 11/10)
    · by_cases h1 : (a - c) * (b - 11/10) - (b - d) * (a - 11/10) ≤ (c - a) * (11/5)
      · exact ⟨_, mE, hit_east a b c d ha2 hc1.le h0 h1⟩
      · push_neg at h1
        have hdS : d ≤ -(11/10) := by
          by_contra hcon
          push_neg at hcon
          linarith [h1, mul_pos (show (0:F) < 11/10 + b by linarith)
              (show (0:F) < c - 11/10 by linarith),
            mul_pos (show (0:F) < 11/10 - a by linarith)
              (show (0:F) < d + 11/10 by linarith)]
        refine ⟨_, mS, hit_south a b c d hb1 hdS ?_ ?_⟩
        · linarith [mul_pos (show (0:F) < c - a by linarith)
              (show (0:F) < b + 11/10 by linarith),
            mul_pos (show (0:F) < b - d by linarith)
              (show (0:F) < a + 11/10 by linarith)]
        · linarith [h1]
    · push_neg at h0
      have hdN : 11/10 ≤ d := by
        by_contra hcon
        push_neg at hcon
        linarith [h0, mul_nonneg (show (0:F) ≤ c - 11/10 by linarith)
            (show (0:F) ≤ 11/10 - b by linarith),
          mul_pos (show (0:F) < 11/10 - a by linarith)
            (show (0:F) < 11/10 - d by linarith)]
      refine ⟨_, mN, hit_north a b c d hb2 hdN ?_ ?_⟩
      · linarith [mul_pos (show (0:F) < c - a by linarith)
            (show (0:F) < 11/10 - b by linarith),
          mul_nonneg (show (0:F) ≤ d - b by linarith)
            (show (0:F) ≤ a + 11/10 by linarith)]
      · linarith [h0]
  · by_cases hc2 : c < -(11/10)
    · by_cases h0 : (a - c) * (b - 11/10) - (b - d) * (a + 11/10) ≤ 0
      · by_cases h1 : -((a - c) * (11/5)) ≤ (a - c) * (b - 11/10) - (b - d) * (a + 11/10)
        · exact ⟨_, mW, hit_west a b c d ha1 hc2.le h0 h1⟩
        · push_neg at h1
          have hdS : d ≤ -(11/10) := by
            by_contra hcon
            push_neg at hcon
            linarith [h1, mul_nonneg (show (0:F) ≤ -(11/10) - c by linarith)
                (show (0:F) ≤ b + 11/10 by linarith),
              mul_pos (show (0:F) < a + 11/10 by linarith)
                (show (0:F) < d + 11/10 by linarith)]
          refine ⟨_, mS, hit_south a b c d hb1 hdS ?_ ?_⟩
          · linarith [h1]
          · linarith [mul_pos (show (0:F) < a - c by linarith)
                (show (0:F) < b + 11/10 by linarith),
              mul_pos (show (0:F) < b - d by linarith)
                (show (0:F) < 11/10 - a by linarith)]
      · push_neg at h0
        have hdN : 11/10 ≤ d := by
          by_contra hcon
          push_neg at hcon
          linarith [h0, mul_nonneg (show (0:F) ≤ -c - 11/10 by linarith)
              (show (0:F) ≤ 11/10 - b by linarith),
            mul_pos (show (0:F) < a + 11/10 by linarith)
              (show (0:F) < 11/10 - d by linarith)]
        refine ⟨_, mN, hit_north a b c d hb2 hdN h0.le ?_⟩
        · linarith [mul_pos (show (0:F) < a - c by linarith)
              (show (0:F) < 11/10 - b by linarith),
            mul_nonneg (show (0:F) ≤ d - b by linarith)
              (show (0:F) ≤ 11/10 - a by linarith)]
    · push_neg at hc1 hc2
      rcases hcd with hC | hD
      · exact absurd hC (not_lt.mpr (abs_le.mpr ⟨hc2, hc1⟩))
      · rcases lt_abs.mp hD with hd1 | hd2
        · refine ⟨_, mN, hit_north a b c d hb2 hd1.le ?_ ?_⟩
          · linarith [mul_nonneg (show (0:F) ≤ c + 11/10 by linarith)
                (show (0:F) ≤ 11/10 - b by linarith),
              mul_nonneg (show (0:F) ≤ a + 11/10 by linarith)
                (show (0:F) ≤ d - 11/10 by linarith)]
          · linarith [mul_nonneg (show (0:F) ≤ 11/10 - c by linarith)
                (show (0:F) ≤ 11/10 - b by linarith),
              mul_nonneg (show (0:F) ≤ 11/10 - a by linarith)
                (show (0:F) ≤ d - 11/10 by linarith)]
        · have hd2' : d ≤ -(11/10) := by linarith
          refine ⟨_, mS, hit_south a b c d hb1 hd2' ?_ ?_⟩
          · linarith [mul_nonneg (show (0:F) ≤ c + 11/10 by linarith)
                (show (0:F) ≤ b + 11/10 by linarith),
              mul_nonneg (show (0:F) ≤ a + 11/10 by linarith)
                (show (0:F) ≤ -(11/10) - d by linarith)]
          · linarith [mul_nonneg (show (0:F) ≤ 11/10 - c by linarith)
                (show (0:F) ≤ b + 11/10 by linarith),
              mul_nonneg (show (0:F) ≤ 11/10 - a by linarith)
                (show (0:F) ≤ -(11/10) - d by linarith)]

/-- Any reported hit against a border segment lies on that border, hence
within the `±1.1` rectangle. -/
lemma hit_on_border_bounds (ext o : Line F) (q : Point F)
    (ho : o ∈ borders (F := F))
    (hq : findLineSegmentIntersection ext o = some q) :
    |q.x| ≤ 11/10 ∧ |q.y| ≤ 11/10 := by
  obtain ⟨-, ⟨-, -, hu0, hu1⟩, -⟩ :=
    (findLineSegmentIntersection_eq_some_iff ext o q).mp hq
  obtain ⟨hqx, hqy⟩ := findLineSegmentIntersection_some_on_l2 ext o q hq
  simp only [borders] at ho
  fin_cases ho <;>
    (dsimp only at hqx hqy hu0 hu1
     rw [hqx, hqy]
     constructor <;> rw [abs_le] <;> exact ⟨by linarith, by linarith⟩)

/-- If some obstacle in the iteration yields a hit closer (squared) than
the sentinel, the search returns a point. -/
lemma findNearestIntersectionPointGen_isSome (ws : List (Line F))
    (start : Line F) (o : Line F) (ho : o ∈ ws ++ borders) (q : Point F)
    (hq : findLineSegmentIntersection (expandLine start) o = some q)
    (hd : pointDistanceSq start.point1 q < DIST_SENTINEL ^ 2) :
    ∃ p, findNearestIntersectionPointGen ws start = some p := by
  have hinv := searchInv_foldl start (expandLine start) (ws ++ borders)
    (none, DIST_SENTINEL ^ 2) [] (Or.inl ⟨rfl, rfl, by simp⟩)
  rw [List.nil_append, List.foldl_append] at hinv
  have hmem : q ∈ hitPoints (ws ++ borders) (expandLine start) :=
    List.mem_filterMap.mpr ⟨o, ho, hq⟩
  rcases hinv with ⟨-, -, h3⟩ | ⟨p, -, -, h1, -, -, -, -, -⟩
  · exact absurd (h3 q hmem) (not_le.mpr hd)
  · exact ⟨p, h1⟩

/-- C4.  For every probe segment whose start point lies strictly inside
the `±1.1` border rectangle — whatever the sampled direction, i.e. for
every second endpoint — the nearest-hit search over the walls and the four
borders finds at least one intersection and returns a well-defined
(non-`none`) hit point. -/
theorem nearest_hit_isSome_of_inside (start : Line ℚ)
    (hx : |start.point1.x| < 11/10) (hy : |start.point1.y| < 11/10) :
    ∃ p, findNearestIntersectionPoint start = some p := by
  obtain ⟨o, ho, q, hq⟩ := exists_border_hit start.point1.x start.point1.y
    (expandLine start).point2.x (expandLine start).point2.y hx hy
    (expandLine_point2_out start)
  have heta : (⟨⟨start.point1.x, start.point1.y⟩,
      ⟨(expandLine start).point2.x, (expandLine start).point2.y⟩⟩ : Line ℚ) =
      expandLine start := by
    rw [← expandLine_point1 start]
  rw [heta] at hq
  have hbnd := hit_on_border_bounds (expandLine start) o q ho hq
  have hdist : pointDistanceSq start.point1 q < DIST_SENTINEL ^ 2 := by
    obtain ⟨hx1, hx2⟩ := abs_lt.mp hx
    obtain ⟨hy1, hy2⟩ := abs_lt.mp hy
    obtain ⟨hqx1, hqx2⟩ := abs_le.mp hbnd.1
    obtain ⟨hqy1, hqy2⟩ := abs_le.mp hbnd.2
    have h1 : (q.x - start.point1.x)^2 ≤ (11/5)^2 := by
      nlinarith [mul_nonneg (show (0:ℚ) ≤ 11/5 - (q.x - start.point1.x) by linarith)
        (show (0:ℚ) ≤ 11/5 + (q.x - start.point1.x) by linarith)]
    have h2 : (q.y - start.point1.y)^2 ≤ (11/5)^2 := by
      nlinarith [mul_nonneg (show (0:ℚ) ≤ 11/5 - (q.y - start.point1.y) by linarith)
        (show (0:ℚ) ≤ 11/5 + (q.y - start.point1.y) by linarith)]
    unfold pointDistanceSq DIST_SENTINEL
    linarith [h1, h2]
  exact findNearestIntersectionPointGen_isSome walls start o
    (List.mem_append_right _ ho) q hq hdist

/-- Witness for C4: the eastward probe from the origin. -/
theorem nearest_hit_isSome_of_inside_witness :
    ∃ p, findNearestIntersectionPoint (⟨⟨0,0⟩,⟨1/20,0⟩⟩ : Line ℚ) = some p :=
  nearest_hit_isSome_of_inside ⟨⟨0,0⟩,⟨1/20,0⟩⟩ (by norm_num) (by norm_num)

end RayCaster
